import Mathlib

/-!
Verification of the subtitle merge engine of the repository (merge_ass_srt.py).

The Python source is shallowly embedded: strings are Lean String values,
text manipulation helpers (strip, split, replace, startswith, the str.join
and list.index operations) are re-implemented over List Char with the same
semantics as the Python built-ins they model, and fallible operations
(ValueError, the regular-expression guard) return Option values.
-/

/-- Python str.isspace characters relevant to str.strip (ASCII range). -/
def isPySpace (c : Char) : Bool :=
  c = ' ' || c = '\t' || c = '\n' || c = '\r' || c = '\x0b' || c = '\x0c'

/-- Characters of a string with leading and trailing whitespace removed. -/
def stripChars (l : List Char) : List Char :=
  ((l.dropWhile isPySpace).reverse.dropWhile isPySpace).reverse

/-- Model of Python str.strip(). -/
def strip (s : String) : String := ⟨stripChars s.data⟩

/-- Model of Python str.startswith. -/
def pyStartsWith (s pat : String) : Bool := pat.data.isPrefixOf s.data

/-- Split a character list on a single separator character.
Mirrors Python str.split(sep) for a one-character separator. -/
def splitOnChar (sep : Char) : List Char → List (List Char)
  | [] => [[]]
  | c :: cs =>
    if c = sep then [] :: splitOnChar sep cs
    else
      match splitOnChar sep cs with
      | [] => [[c]]
      | p :: ps => (c :: p) :: ps

/-- Split a character list at every leftmost, non-overlapping occurrence of
two consecutive newline characters. Mirrors Python str.split applied with a
two-newline separator, specialised to that separator. -/
def splitOnBlank : List Char → List (List Char)
  | [] => [[]]
  | '\n' :: '\n' :: cs => [] :: splitOnBlank cs
  | c :: cs =>
    match splitOnBlank cs with
    | [] => [[c]]
    | p :: ps => (c :: p) :: ps

/-- Model of Python s.split(chr(10)): split a string into its lines. -/
def splitLines (s : String) : List String :=
  (splitOnChar '\n' s.data).map (fun l => ⟨l⟩)

/-- Model of Python s.split on a blank line: split a string into blocks. -/
def splitBlocks (s : String) : List String :=
  (splitOnBlank s.data).map (fun l => ⟨l⟩)

/-- Model of Python (chr(10)).join(lines). -/
def joinLines (ls : List String) : String :=
  ⟨List.intercalate ['\n'] (ls.map String.data)⟩

/-- Worker for replaceAll. The fuel argument makes the recursion structural;
it is called with fuel equal to the length of the list, which the scan never
exhausts because each step consumes at least one character. -/
def replaceAllFuel (pat rep : List Char) : Nat → List Char → List Char
  | 0, l => l
  | _ + 1, [] => []
  | fuel + 1, c :: cs =>
    if pat ≠ [] ∧ pat.isPrefixOf (c :: cs) then
      rep ++ replaceAllFuel pat rep fuel (cs.drop (pat.length - 1))
    else
      c :: replaceAllFuel pat rep fuel cs

/-- Replace every leftmost, non-overlapping occurrence of pat by rep.
Mirrors Python str.replace for a non-empty pattern (the empty pattern,
which Python treats specially, is treated as never matching; the source
never calls replace with an empty pattern). -/
def replaceAll (pat rep l : List Char) : List Char :=
  replaceAllFuel pat rep l.length l

/-- Model of Python s.replace(pat, rep). -/
def pyReplace (s pat rep : String) : String := ⟨replaceAll pat.data rep.data s.data⟩

/-- Model of the Python substring test (needle in hay). -/
def containsSub (needle : List Char) : List Char → Bool
  | [] => needle.isEmpty
  | c :: cs => needle.isPrefixOf (c :: cs) || containsSub needle cs

/-- Model of Python int(s) for an unsigned decimal literal: defined when the
string is non-empty and all digits (signs, whitespace and underscores, which
Python also accepts, never occur in the source inputs). -/
def digitsToNat? (l : List Char) : Option Nat :=
  if l ≠ [] ∧ l.all Char.isDigit then
    some (l.foldl (fun n c => 10 * n + (c.toNat - 48)) 0)
  else none

/-- Formatting of a number below 100 with two digits: Python format 02d. -/
def pad2 (n : Nat) : String :=
  if n < 10 then "0" ++ toString n else toString n

/-- Left-pad a string with zero characters to the given width. -/
def padLeftZeros (w : Nat) (s : String) : String :=
  if w ≤ s.length then s else ⟨List.replicate (w - s.length) '0' ++ s.data⟩

/-- Python format 06.2f applied to a non-negative number of centiseconds:
the value rendered with exactly two digits after the decimal point, then
zero-padded on the left to a total width of six characters. -/
def fmt06_2 (centis : Nat) : String :=
  padLeftZeros 6 (toString (centis / 100) ++ "." ++ pad2 (centis % 100))

/-- Model of Python float(s) for a plain decimal literal, combined with the
rounding to centiseconds performed by the 06.2f format in parse_srt_time.
Returns the value in centiseconds. Rounding of the fractional part is
half-up on the exact decimal value; the source rounds the nearest binary
double instead, which differs only on decimal ties, and no input exercised
by the claims is a tie. Exponent, infinity and sign forms accepted by
Python float never occur in the source inputs and are not modelled. -/
def pyDecimal (l : List Char) : Option Nat :=
  match splitOnChar '.' l with
  | [w] => (digitsToNat? w).map (· * 100)
  | [w, f] =>
    if (w.all Char.isDigit ∧ f.all Char.isDigit) ∧ (w ≠ [] ∨ f ≠ []) then
      some ((w.foldl (fun n c => 10 * n + (c.toNat - 48)) 0) * 100 +
        ((f.foldl (fun n c => 10 * n + (c.toNat - 48)) 0) * 100 + 10 ^ f.length / 2) / 10 ^ f.length)
    else none
  | _ => none

/-- Embedding of parse_srt_time (merge_ass_srt.py lines 14-25) on the
character list of its input: replace commas by dots, split on colons, read
the hour and minute fields as integers and the seconds field as a float,
and format the result as hours unpadded, minutes 02d, seconds 06.2f.
Returns none where the Python code would raise (IndexError when fewer than
three colon-separated fields exist, ValueError when a field fails to parse);
inside parse_srt_file the regular-expression guard makes these unreachable. -/
def parseSrtTimeChars (l : List Char) : Option String :=
  match splitOnChar ':' (l.map (fun c => if c = ',' then '.' else c)) with
  | p0 :: p1 :: p2 :: _ =>
    match digitsToNat? p0, digitsToNat? p1, pyDecimal p2 with
    | some hours, some minutes, some centis =>
      some (toString hours ++ ":" ++ pad2 minutes ++ ":" ++ fmt06_2 centis)
    | _, _, _ => none
  | _ => none

/-- Embedding of parse_srt_time on strings. -/
def parse_srt_time (time_str : String) : Option String :=
  parseSrtTimeChars time_str.data

/-- One parsed subtitle entry, as built by parse_srt_file. The Python code
stores the fields in a dict with keys index, start, end and text; the end
field is named stop here because end is a reserved word in Lean. -/
structure SrtSub where
  index : String
  start : String
  stop : String
  text : String
deriving DecidableEq

/-- Does a twelve-character list have the shape of the timestamp group
of the regular expression in parse_srt_file: two digits, a colon, two
digits, a colon, two digits, a comma, three digits? -/
def tsShape : List Char → Bool
  | [c0, c1, c2, c3, c4, c5, c6, c7, c8, c9, c10, c11] =>
    c0.isDigit && c1.isDigit && c2 == ':' && c3.isDigit && c4.isDigit && c5 == ':' &&
    c6.isDigit && c7.isDigit && c8 == ',' && c9.isDigit && c10.isDigit && c11.isDigit
  | _ => false

/-- Embedding of the re.match call of parse_srt_file (line 58): the pattern
of two timestamp groups joined by a spaced arrow must match a prefix of the
line (re.match anchors only at the start); on success the two captured
groups are returned. -/
def timeGroups (line : String) : Option (String × String) :=
  if tsShape (line.data.take 12) ∧ (line.data.drop 12).take 5 = [' ', '-', '-', '>', ' '] ∧
      tsShape ((line.data.drop 17).take 12) then
    some (⟨line.data.take 12⟩, ⟨(line.data.drop 17).take 12⟩)
  else none

/-- The body of the per-block loop of parse_srt_file (lines 47-68): strip
the block, split it into lines, require at least three lines, match the
time pattern against the second line, and build the entry from the first
line (index), the converted captured timestamps, and the remaining lines
joined by newlines. The inner none branch is unreachable: conversion of a
captured group always succeeds. -/
def blockToEntry (block : String) : Option SrtSub :=
  match splitLines (strip block) with
  | l0 :: l1 :: l2 :: rest =>
    match timeGroups l1 with
    | some (g1, g2) =>
      match parse_srt_time g1, parse_srt_time g2 with
      | some st, some en => some { index := l0, start := st, stop := en, text := joinLines (l2 :: rest) }
      | _, _ => none
    | none => none
  | _ => none

/-- Embedding of parse_srt_file (lines 28-70) on the decoded file content:
strip the content, split it into blank-line-separated blocks, and collect
one entry per block that passes the length and time-pattern checks. -/
def parse_srt_file (content : String) : List SrtSub :=
  (splitBlocks (strip content)).filterMap blockToEntry

/-- The synthesized style definition injected by merge_ass_srt (line 122). -/
def subtitle_style : String :=
  "Style: Subtitle,黑体,42,&H00FFFFFF,&H00FFFFFF,&H00000000,&H80000000,1,0,0,0,100,100,0.00,0.00,1,2.0,0,2,20,20,90,1"

/-- The text cleaning applied to an entry before emitting it as a dialogue
line (lines 130 and 141): newlines become a backslash-N escape and brace
characters are escaped with a backslash. -/
def clean_text (s : String) : String :=
  pyReplace (pyReplace (pyReplace s "\n" "\\N") "\x7b" "\\\x7b") "\x7d" "\\\x7d"

/-- One synthesized dialogue line for an entry (lines 131 and 142). -/
def dialogue_line (sub : SrtSub) : String :=
  "Dialogue: 0," ++ sub.start ++ "," ++ sub.stop ++ ",Subtitle,,0,0,0,," ++ clean_text sub.text

/-- The forward scan of merge_ass_srt over the lines of the primary document
(lines 113-136), threading the style-section-found and events-section-found
flags exactly as the Python loop does. -/
def mergeScan (subs : List SrtSub) : Bool → Bool → List String → List String
  | _, _, [] => []
  | styleFound, eventsFound, line :: rest =>
    if strip line = "[V4+ Styles]" then
      line :: mergeScan subs true eventsFound rest
    else if strip line = "[Events]" then
      (if styleFound = true then [subtitle_style] else []) ++ line :: mergeScan subs styleFound true rest
    else if pyStartsWith (strip line) "[" = true ∧ eventsFound = true then
      subs.map dialogue_line ++ line :: mergeScan subs styleFound eventsFound rest
    else
      line :: mergeScan subs styleFound eventsFound rest

/-- The value of the events-section-found flag after the scan: the loop sets
it exactly when some line strips to the events header, because a line whose
stripped form is the events header never takes the preceding branch. -/
def events_section_found (lines : List String) : Bool :=
  lines.any (fun l => strip l == "[Events]")

/-- Model of Python list.index: the first position of an exactly equal
element, none where Python raises ValueError. -/
def pyIndexOf (target : String) : List String → Option Nat
  | [] => none
  | x :: xs => if x = target then some 0 else (pyIndexOf target xs).map (· + 1)

/-- Outcome of the document-editing part of merge_ass_srt: either the full
output line list, or the uncaught ValueError raised by list.index on line
139 when no line is exactly equal to the events header. -/
inductive MergeCoreResult where
  | ok (outLines : List String)
  | valueError
deriving DecidableEq

/-- The document-editing core of merge_ass_srt (lines 105-143): the forward
scan over the lines, followed by the end-of-file fallback that appends the
dialogue block when the events flag is set and no bracketed line other than
the events header occurs after the first line exactly equal to the events
header. The index lookup uses exact equality while the scan used stripped
comparison; when they disagree the lookup raises (valueError). -/
def mergeCore (lines : List String) (subs : List SrtSub) : MergeCoreResult :=
  if events_section_found lines = true then
    match pyIndexOf "[Events]" lines with
    | none => .valueError
    | some i =>
      if (lines.drop (i + 1)).any (fun l => pyStartsWith (strip l) "[" && (strip l != "[Events]")) then
        .ok (mergeScan subs false false lines)
      else
        .ok (mergeScan subs false false lines ++ subs.map dialogue_line)
  else
    .ok (mergeScan subs false false lines)

/-- Outcome of one merge_ass_srt call: success carries the output lines
(the file written is their newline join), failure is the False return used
for an empty primary, an empty parse result or a write error, and
valueError is the uncaught exception escaping the function. -/
inductive MergeResult where
  | success (outLines : List String)
  | failure
  | valueError
deriving DecidableEq

/-- Embedding of merge_ass_srt (lines 88-153). File reading is abstracted
to the decoded contents: assContent is what read_ass_file returns (the empty
string when the file is unreadable), srtContent is the decoded companion
text handed to parse_srt_file, and writeOk tells whether writing the output
path succeeds (the write is guarded by try/except in the source). -/
def merge_ass_srt (assContent srtContent : String) (writeOk : Bool) : MergeResult :=
  if assContent = "" then .failure
  else if parse_srt_file srtContent = [] then .failure
  else
    match mergeCore (splitLines assContent) (parse_srt_file srtContent) with
    | .valueError => .valueError
    | .ok out => if writeOk then .success out else .failure

/-- One primary/companion pairing handled by the orchestrator, with the
write outcome of its output path. -/
structure Pairing where
  assContent : String
  srtContent : String
  writeOk : Bool

/-- The inner loop of main (lines 254-267) over a list of pairings: a True
return increments the merged counter, a False return increments the skipped
counter, and an uncaught exception aborts the whole run (none), because
main has no try/except around the merge call. -/
def processPairings : List Pairing → Option (Nat × Nat)
  | [] => some (0, 0)
  | p :: ps =>
    match merge_ass_srt p.assContent p.srtContent p.writeOk with
    | .valueError => none
    | .success _ => (processPairings ps).map (fun c => (c.1 + 1, c.2))
    | .failure => (processPairings ps).map (fun c => (c.1, c.2 + 1))

/-- Model of os.path.basename for forward-slash paths: the part after the
last separator. The claims only exercise bare file names, for which this
agrees with os.path on every platform. -/
def os_path_basename (p : String) : String :=
  ⟨(splitOnChar '/' p.data).getLastD []⟩

def os_path_dirname (p : String) : String :=
  match splitOnChar '/' p.data with
  | [] => ""
  | [_] => ""
  | parts => ⟨List.intercalate ['/'] parts.dropLast⟩

def os_path_join (d f : String) : String :=
  if d = "" then f else d ++ "/" ++ f

/-- Embedding of generate_output_filename (lines 192-216): derive the base
identifier and the companion base by suffix removal, and when the base
occurs inside the companion base, extract the tag by deleting the base and
one leading dot; otherwise fall back to the untagged name. -/
def generate_output_filename (srt_file_path ass_file_path : String) : String :=
  let srt_basename := os_path_basename srt_file_path
  let ass_basename := os_path_basename ass_file_path
  let ass_base := pyReplace ass_basename ".danmaku.ass" ""
  let srt_base := pyReplace srt_basename ".srt" ""
  if containsSub ass_base.data srt_base.data then
    let lang_part := pyReplace srt_base ass_base ""
    let lang_part := if pyStartsWith lang_part "." then lang_part.drop 1 else lang_part
    os_path_join (os_path_dirname ass_file_path) (ass_base ++ "." ++ lang_part ++ ".merged.ass")
  else
    os_path_join (os_path_dirname ass_file_path) (ass_base ++ ".merged.ass")

/-- Strip a literal leading sequence, returning the remainder. -/
def stripLead : List Char → List Char → Option (List Char)
  | [], l => some l
  | _ :: _, [] => none
  | p :: ps, c :: cs => if c = p then stripLead ps cs else none

/-- Whether a path matches the glob pattern base followed by a dot, a star
and the companion suffix, as built in find_matching_srt_files (line 163).
Models the glob library semantics for a literal base: the star matches any
possibly empty run of characters other than the path separator. -/
def globStarMatch (base : String) (p : String) : Bool :=
  match stripLead (base.data ++ ['.']) p.data with
  | none => false
  | some rest =>
    decide (4 ≤ rest.length) &&
    rest.drop (rest.length - 4) == ['.', 's', 'r', 't'] &&
    (rest.take (rest.length - 4)).all (fun c => c != '/')

/-- Lexicographic comparison of character lists by code point, the order
Python sorted uses on strings. -/
def charListLt : List Char → List Char → Bool
  | [], [] => false
  | [], _ :: _ => true
  | _ :: _, [] => false
  | a :: as, b :: bs => if a < b then true else if b < a then false else charListLt as bs

/-- Insert a string into a lexicographically sorted list. -/
def insertSorted (x : String) : List String → List String
  | [] => [x]
  | y :: ys => if charListLt x.data y.data then x :: y :: ys else y :: insertSorted x ys

/-- Insertion sort by the Python string order; models sorted(...). -/
def sortStrings : List String → List String
  | [] => []
  | x :: xs => insertSorted x (sortStrings xs)

/-- Remove duplicates; models list(set(...)) up to order, which the
subsequent sort makes irrelevant. -/
def dedupStrings : List String → List String
  | [] => []
  | x :: xs => if x ∈ xs then dedupStrings xs else x :: dedupStrings xs

/-- Embedding of find_matching_srt_files (lines 156-174) over an explicit
filesystem listing: derive the base by removing the compound suffix, keep
the files matching the glob pattern, deduplicate and sort. -/
def find_matching_srt_files (ass_file_path : String) (files : List String) : List String :=
  let base_name := pyReplace ass_file_path ".danmaku.ass" ""
  sortStrings (dedupStrings (files.filter (globStarMatch base_name)))

/-- Validity of a companion block in the words of the specification: after
stripping, the block has at least three lines and its second line matches
the time-range pattern. -/
def specValidBlock (block : String) : Bool :=
  decide (3 ≤ (splitLines (strip block)).length) &&
    (match (splitLines (strip block)).get? 1 with
     | some l1 => (timeGroups l1).isSome
     | none => false)

/-- The entry a valid block denotes, in the words of the specification:
the first line is the index label, the two captured timestamps converted,
and the remaining lines joined as the text. -/
def specBlockEntry (block : String) : SrtSub :=
  { index := ((splitLines (strip block)).get? 0).getD ""
    start := (((splitLines (strip block)).get? 1).bind
      (fun l1 => (timeGroups l1).bind (fun g => parse_srt_time g.1))).getD ""
    stop := (((splitLines (strip block)).get? 1).bind
      (fun l1 => (timeGroups l1).bind (fun g => parse_srt_time g.2))).getD ""
    text := joinLines ((splitLines (strip block)).drop 2) }

-- Sanity checks that the models evaluate as the Python built-ins do.
example : strip "[Events] " = "[Events]" := by decide
example : splitLines "a\nb" = ["a", "b"] := by decide
example : splitBlocks "a\n\n\nb" = ["a", "\nb"] := by decide
example : pyReplace "show.danmaku.ass" ".danmaku.ass" "" = "show" := by decide
example : pyReplace "show.ai-zh" "show" "" = ".ai-zh" := by decide
example : containsSub "show".data "show.ai-zh".data = true := by decide
example : pyStartsWith "[Events]" "[" = true := by decide
example : joinLines ["a", "b"] = "a\nb" := by decide
example : parse_srt_time "00:00:07,560" = some "0:00:007.56" := by decide
example : parse_srt_time "00:00:08,300" = some "0:00:008.30" := by decide
example : parse_srt_time "1:2:3,4" = some "1:02:003.40" := by decide
example : parse_srt_time "abc" = none := by decide
example : parse_srt_file "1\n00:00:07,560 --> 00:00:08,300\nHello" =
    [{ index := "1", start := "0:00:007.56", stop := "0:00:008.30", text := "Hello" }] := by decide
example : parse_srt_file "1\nbadtime\nHello" = [] := by decide
example : parse_srt_file "" = [] := by decide
example : parse_srt_file "1\n00:00:07,560 --> 00:00:08,300\nHello\n\n2\n00:01:00,000 --> 00:01:01,000\nWorld\nAgain" =
    [{ index := "1", start := "0:00:007.56", stop := "0:00:008.30", text := "Hello" },
     { index := "2", start := "0:01:000.00", stop := "0:01:001.00", text := "World\nAgain" }] := by decide

/-- A concrete entry used by several evaluations below: what parse_srt_file
produces for the companion block 1, 00:00:07,560 to 00:00:08,300, Hello. -/
def demoSub : SrtSub :=
  { index := "1", start := "0:00:007.56", stop := "0:00:008.30", text := "Hello" }

/-- A concrete companion content parsing to exactly the entry demoSub. -/
def demoSrt : String := "1\n00:00:07,560 --> 00:00:08,300\nHello"

example : parse_srt_file demoSrt = [demoSub] := by decide
example : dialogue_line demoSub = "Dialogue: 0,0:00:007.56,0:00:008.30,Subtitle,,0,0,0,,Hello" := by decide
example : clean_text "a\nb\x7bc\x7d" = "a\\Nb\\\x7bc\\\x7d" := by decide
example : mergeCore ["[Events]", "[Fonts]", "[Graphics]"] [demoSub] =
    .ok ["[Events]", dialogue_line demoSub, "[Fonts]", dialogue_line demoSub, "[Graphics]"] := by decide
example : mergeCore ["[Events] ", "Dialogue: old"] [demoSub] = .valueError := by decide
example : merge_ass_srt "[Script Info]\n[Events]\nDialogue: x" demoSrt true =
    .success ["[Script Info]", "[Events]", "Dialogue: x", dialogue_line demoSub] := by decide
example : merge_ass_srt "[Script Info]\nTitle: x" demoSrt true =
    .success ["[Script Info]", "Title: x"] := by decide
example : generate_output_filename "show.ai-zh.srt" "show.danmaku.ass" = "show.ai-zh.merged.ass" := by decide
example : generate_output_filename "show.srt" "show.danmaku.ass" = "show..merged.ass" := by decide
example : generate_output_filename "other.srt" "show.danmaku.ass" = "show.merged.ass" := by decide
example : find_matching_srt_files "show.danmaku.ass" ["show.ai-zh.srt", "show.srt", "unrelated.srt", "show..srt"] =
    ["show..srt", "show.ai-zh.srt"] := by decide
example : processPairings [⟨"[Events] \nDialogue: old", demoSrt, true⟩, ⟨"[Script Info]\n[Events]\nDialogue: x", demoSrt, true⟩] = none := by decide
example : processPairings [⟨"[Script Info]\n[Events]\nDialogue: x", demoSrt, true⟩] = some (1, 0) := by decide

/-! ### Helper lemmas about the character-level models -/

theorem isDigit_ne_comma {c : Char} (h : c.isDigit = true) : c ≠ ',' := by
  rintro rfl; exact absurd h (by decide)

theorem isDigit_ne_colon {c : Char} (h : c.isDigit = true) : c ≠ ':' := by
  rintro rfl; exact absurd h (by decide)

theorem isDigit_ne_dot {c : Char} (h : c.isDigit = true) : c ≠ '.' := by
  rintro rfl; exact absurd h (by decide)

theorem splitOnChar_no_sep (sep : Char) :
    ∀ (l : List Char), (∀ c ∈ l, c ≠ sep) → splitOnChar sep l = [l] := by
  intro l
  induction l with
  | nil => intro _; rfl
  | cons c cs ih =>
    intro h
    have hc : c ≠ sep := h c (List.mem_cons_self c cs)
    have hrest := ih (fun x hx => h x (List.mem_cons_of_mem c hx))
    simp [splitOnChar, hc, hrest]

theorem splitOnChar_append (sep : Char) :
    ∀ (l1 l2 : List Char), (∀ c ∈ l1, c ≠ sep) →
      splitOnChar sep (l1 ++ sep :: l2) = l1 :: splitOnChar sep l2 := by
  intro l1
  induction l1 with
  | nil => intro l2 _; simp [splitOnChar]
  | cons c cs ih =>
    intro l2 h
    have hc : c ≠ sep := h c (List.mem_cons_self c cs)
    have hrest := ih l2 (fun x hx => h x (List.mem_cons_of_mem c hx))
    simp [splitOnChar, hc, hrest]

theorem digitsToNat?_of_digits {l : List Char} (hne : l ≠ []) (hd : ∀ c ∈ l, c.isDigit = true) :
    ∃ n, digitsToNat? l = some n := by
  unfold digitsToNat?
  rw [if_pos ⟨hne, by simpa [List.all_eq_true] using hd⟩]
  exact ⟨_, rfl⟩

theorem pyDecimal_dotted {w f : List Char} (hw : ∀ c ∈ w, c.isDigit = true)
    (hf : ∀ c ∈ f, c.isDigit = true) (hne : w ≠ [] ∨ f ≠ []) :
    ∃ n, pyDecimal (w ++ '.' :: f) = some n := by
  unfold pyDecimal
  rw [splitOnChar_append '.' w f (fun c hc => isDigit_ne_dot (hw c hc)),
    splitOnChar_no_sep '.' f (fun c hc => isDigit_ne_dot (hf c hc))]
  have hcond : ((w.all Char.isDigit ∧ f.all Char.isDigit) ∧ (w ≠ [] ∨ f ≠ [])) := by
    refine ⟨⟨?_, ?_⟩, hne⟩
    · simpa [List.all_eq_true] using hw
    · simpa [List.all_eq_true] using hf
  exact ⟨_, if_pos hcond⟩

theorem parseSrtTimeChars_of_tsShape {l : List Char} (h : tsShape l = true) :
    ∃ v, parseSrtTimeChars l = some v := by
  unfold tsShape at h
  split at h
  case h_2 => exact absurd h (by simp)
  case h_1 c0 c1 c2 c3 c4 c5 c6 c7 c8 c9 c10 c11 =>
    simp only [Bool.and_eq_true, beq_iff_eq, and_assoc] at h
    obtain ⟨h0, h1, e2, h3, h4, e5, h6, h7, e8, h9, h10, h11⟩ := h
    subst e2; subst e5; subst e8
    unfold parseSrtTimeChars
    have m : (([c0, c1, ':', c3, c4, ':', c6, c7, ',', c9, c10, c11] : List Char).map
        (fun c => if c = ',' then '.' else c)) =
        [c0, c1, ':', c3, c4, ':', c6, c7, '.', c9, c10, c11] := by
      simp [isDigit_ne_comma h0, isDigit_ne_comma h1, isDigit_ne_comma h3,
        isDigit_ne_comma h4, isDigit_ne_comma h6, isDigit_ne_comma h7,
        isDigit_ne_comma h9, isDigit_ne_comma h10, isDigit_ne_comma h11]
    have hsplit : splitOnChar ':' [c0, c1, ':', c3, c4, ':', c6, c7, '.', c9, c10, c11] =
        [[c0, c1], [c3, c4], [c6, c7, '.', c9, c10, c11]] := by
      rw [show ([c0, c1, ':', c3, c4, ':', c6, c7, '.', c9, c10, c11] : List Char) =
        [c0, c1] ++ ':' :: ([c3, c4] ++ ':' :: [c6, c7, '.', c9, c10, c11]) from rfl]
      rw [splitOnChar_append ':' [c0, c1] _ (by
        intro c hc
        rcases List.mem_cons.1 hc with rfl | hc2
        · exact isDigit_ne_colon h0
        · rcases List.mem_cons.1 hc2 with rfl | hc3
          · exact isDigit_ne_colon h1
          · cases hc3)]
      rw [splitOnChar_append ':' [c3, c4] _ (by
        intro c hc
        rcases List.mem_cons.1 hc with rfl | hc2
        · exact isDigit_ne_colon h3
        · rcases List.mem_cons.1 hc2 with rfl | hc3
          · exact isDigit_ne_colon h4
          · cases hc3)]
      rw [splitOnChar_no_sep ':' [c6, c7, '.', c9, c10, c11] (by
        intro c hc
        simp only [List.mem_cons] at hc
        rcases hc with rfl | rfl | rfl | rfl | rfl | rfl | hc
        · exact isDigit_ne_colon h6
        · exact isDigit_ne_colon h7
        · decide
        · exact isDigit_ne_colon h9
        · exact isDigit_ne_colon h10
        · exact isDigit_ne_colon h11
        · cases hc)]
    obtain ⟨n0, e0⟩ := digitsToNat?_of_digits (l := [c0, c1]) (by simp) (by
      intro c hc
      rcases List.mem_cons.1 hc with rfl | hc2
      · exact h0
      · rcases List.mem_cons.1 hc2 with rfl | hc3
        · exact h1
        · cases hc3)
    obtain ⟨n1, e1⟩ := digitsToNat?_of_digits (l := [c3, c4]) (by simp) (by
      intro c hc
      rcases List.mem_cons.1 hc with rfl | hc2
      · exact h3
      · rcases List.mem_cons.1 hc2 with rfl | hc3
        · exact h4
        · cases hc3)
    obtain ⟨n2, e2⟩ := pyDecimal_dotted (w := [c6, c7]) (f := [c9, c10, c11]) (by
      intro c hc
      rcases List.mem_cons.1 hc with rfl | hc2
      · exact h6
      · rcases List.mem_cons.1 hc2 with rfl | hc3
        · exact h7
        · cases hc3) (by
      intro c hc
      simp only [List.mem_cons] at hc
      rcases hc with rfl | rfl | rfl | hc
      · exact h9
      · exact h10
      · exact h11
      · cases hc) (Or.inl (by simp))
    have e2' : pyDecimal [c6, c7, '.', c9, c10, c11] = some n2 := e2
    rw [m, hsplit]
    simp only [e0, e1, e2']
    exact ⟨_, rfl⟩

theorem timeGroups_parse {l1 g1 g2 : String} (h : timeGroups l1 = some (g1, g2)) :
    (∃ v, parse_srt_time g1 = some v) ∧ (∃ v, parse_srt_time g2 = some v) := by
  unfold timeGroups at h
  split at h
  case isTrue hc =>
    obtain ⟨hs1, _, hs2⟩ := hc
    injection h with h
    injection h with hg1 hg2
    subst hg1; subst hg2
    exact ⟨parseSrtTimeChars_of_tsShape hs1, parseSrtTimeChars_of_tsShape hs2⟩
  case isFalse => cases h

theorem filterMap_eq_map_filter {α β : Type} (f : α → Option β) (p : α → Bool) (g : α → β)
    (h : ∀ a, f a = if p a = true then some (g a) else none) :
    ∀ l : List α, l.filterMap f = (l.filter p).map g := by
  intro l
  induction l with
  | nil => rfl
  | cons a as ih =>
    cases hp : p a with
    | true => simp [List.filterMap_cons, List.filter_cons, h a, hp, ih]
    | false => simp [List.filterMap_cons, List.filter_cons, h a, hp, ih]

/-! ### Helper lemmas about the merge scan -/

theorem strip_of_eq_events {l : String} (h : l = "[Events]") : strip l = "[Events]" := by
  rw [h]; decide

theorem ne_events_of_strip_ne {l : String} (h : strip l ≠ "[Events]") : l ≠ "[Events]" :=
  fun e => h (strip_of_eq_events e)

theorem starts_of_strip_styles {l : String} (h : strip l = "[V4+ Styles]") :
    pyStartsWith (strip l) "[" = true := by rw [h]; decide

theorem starts_of_strip_events {l : String} (h : strip l = "[Events]") :
    pyStartsWith (strip l) "[" = true := by rw [h]; decide

theorem strip_ne_styles_of_no_bracket {l : String} (h : pyStartsWith (strip l) "[" = false) :
    strip l ≠ "[V4+ Styles]" :=
  fun e => by rw [starts_of_strip_styles e] at h; cases h

theorem strip_ne_events_of_no_bracket {l : String} (h : pyStartsWith (strip l) "[" = false) :
    strip l ≠ "[Events]" :=
  fun e => by rw [starts_of_strip_events e] at h; cases h

theorem mergeScan_pass_no_sections (subs : List SrtSub) (sF : Bool) :
    ∀ (seg rest : List String), (∀ l ∈ seg, strip l ≠ "[V4+ Styles]" ∧ strip l ≠ "[Events]") →
      mergeScan subs sF false (seg ++ rest) = seg ++ mergeScan subs sF false rest := by
  intro seg
  induction seg with
  | nil => intro rest _; rfl
  | cons x xs ih =>
    intro rest h
    obtain ⟨hx1, hx2⟩ := h x (List.mem_cons_self x xs)
    have hrest := ih rest (fun l hl => h l (List.mem_cons_of_mem x hl))
    simp [mergeScan, hx1, hx2, hrest]

theorem mergeScan_pass_style_seen (subs : List SrtSub) :
    ∀ (seg rest : List String), (∀ l ∈ seg, strip l ≠ "[Events]") →
      mergeScan subs true false (seg ++ rest) = seg ++ mergeScan subs true false rest := by
  intro seg
  induction seg with
  | nil => intro rest _; rfl
  | cons x xs ih =>
    intro rest h
    have hx2 := h x (List.mem_cons_self x xs)
    have hrest := ih rest (fun l hl => h l (List.mem_cons_of_mem x hl))
    by_cases hx1 : strip x = "[V4+ Styles]"
    · simp [mergeScan, hx1, hx2, hrest]
    · simp [mergeScan, hx1, hx2, hrest]

theorem mergeScan_pass_no_bracket (subs : List SrtSub) (sF eF : Bool) :
    ∀ (seg rest : List String), (∀ l ∈ seg, pyStartsWith (strip l) "[" = false) →
      mergeScan subs sF eF (seg ++ rest) = seg ++ mergeScan subs sF eF rest := by
  intro seg
  induction seg with
  | nil => intro rest _; rfl
  | cons x xs ih =>
    intro rest h
    have hb := h x (List.mem_cons_self x xs)
    have hrest := ih rest (fun l hl => h l (List.mem_cons_of_mem x hl))
    simp [mergeScan, strip_ne_styles_of_no_bracket hb, strip_ne_events_of_no_bracket hb, hb, hrest]

theorem mergeScan_stop_no_bracket (subs : List SrtSub) (sF eF : Bool)
    (seg : List String) (h : ∀ l ∈ seg, pyStartsWith (strip l) "[" = false) :
    mergeScan subs sF eF seg = seg := by
  have := mergeScan_pass_no_bracket subs sF eF seg [] h
  simpa [mergeScan] using this

theorem mergeScan_no_events (subs : List SrtSub) :
    ∀ (seg : List String) (sF : Bool), (∀ l ∈ seg, strip l ≠ "[Events]") →
      mergeScan subs sF false seg = seg := by
  intro seg
  induction seg with
  | nil => intro sF _; rfl
  | cons x xs ih =>
    intro sF h
    have hx2 := h x (List.mem_cons_self x xs)
    have hrest := fun sF => ih sF (fun l hl => h l (List.mem_cons_of_mem x hl))
    by_cases hx1 : strip x = "[V4+ Styles]"
    · simp [mergeScan, hx1, hx2, hrest]
    · simp [mergeScan, hx1, hx2, hrest]

theorem mergeScan_sublist (subs : List SrtSub) :
    ∀ (l : List String) (sF eF : Bool), l.Sublist (mergeScan subs sF eF l) := by
  intro l
  induction l with
  | nil => intro sF eF; exact List.Sublist.refl []
  | cons x xs ih =>
    intro sF eF
    by_cases h1 : strip x = "[V4+ Styles]"
    · simpa [mergeScan, h1] using (ih true eF).cons₂ x
    · by_cases h2 : strip x = "[Events]"
      · have hr : mergeScan subs sF eF (x :: xs) =
            (if sF = true then [subtitle_style] else []) ++ x :: mergeScan subs sF true xs := by
          simp [mergeScan, h1, h2]
        rw [hr]
        exact ((ih sF true).cons₂ x).trans (List.sublist_append_right _ _)
      · by_cases h3 : pyStartsWith (strip x) "[" = true ∧ eF = true
        · have hr : mergeScan subs sF eF (x :: xs) =
              subs.map dialogue_line ++ x :: mergeScan subs sF eF xs := by
            simp [mergeScan, h1, h2, h3]
          rw [hr]
          exact ((ih sF eF).cons₂ x).trans (List.sublist_append_right _ _)
        · simpa [mergeScan, h1, h2, h3] using (ih sF eF).cons₂ x

theorem mergeCore_ok_sublist {lines : List String} {subs : List SrtSub} {out : List String}
    (h : mergeCore lines subs = .ok out) : lines.Sublist out := by
  unfold mergeCore at h
  by_cases he : events_section_found lines = true
  · rw [if_pos he] at h
    rcases hidx : pyIndexOf "[Events]" lines with _ | i
    · simp only [hidx] at h
      cases h
    · simp only [hidx] at h
      by_cases hany : (lines.drop (i + 1)).any
          (fun l => pyStartsWith (strip l) "[" && (strip l != "[Events]")) = true
      · rw [if_pos hany] at h
        injection h with h
        rw [← h]
        exact mergeScan_sublist subs lines false false
      · rw [if_neg hany] at h
        injection h with h
        rw [← h]
        exact (mergeScan_sublist subs lines false false).trans (List.sublist_append_left _ _)
  · rw [if_neg he] at h
    injection h with h
    rw [← h]
    exact mergeScan_sublist subs lines false false

theorem pyIndexOf_append (t : String) :
    ∀ (xs ys : List String), (∀ x ∈ xs, x ≠ t) →
      pyIndexOf t (xs ++ t :: ys) = some xs.length := by
  intro xs
  induction xs with
  | nil => intro ys _; simp [pyIndexOf]
  | cons x xs ih =>
    intro ys h
    have hx := h x (List.mem_cons_self x xs)
    have := ih ys (fun l hl => h l (List.mem_cons_of_mem x hl))
    simp [pyIndexOf, hx, this]

theorem drop_past_marker (x : String) :
    ∀ (xs tail : List String), (xs ++ x :: tail).drop (xs.length + 1) = tail := by
  intro xs
  induction xs with
  | nil => intro tail; simp
  | cons a as ih => intro tail; simp only [List.cons_append, List.length_cons, List.drop_succ_cons]; exact ih tail

theorem events_found_of_mem {lines : List String} {l : String}
    (hm : l ∈ lines) (h : strip l = "[Events]") : events_section_found lines = true := by
  unfold events_section_found
  rw [List.any_eq_true]
  exact ⟨l, hm, beq_iff_eq.mpr h⟩

theorem events_not_found {lines : List String}
    (h : ∀ l ∈ lines, strip l ≠ "[Events]") : events_section_found lines = false := by
  unfold events_section_found
  rw [List.any_eq_false]
  intro l hl
  simpa using h l hl

theorem mergeCore_no_events {lines : List String} {subs : List SrtSub}
    (h : ∀ l ∈ lines, strip l ≠ "[Events]") : mergeCore lines subs = .ok lines := by
  unfold mergeCore
  rw [events_not_found h]
  simp [mergeScan_no_events subs lines false h]

/-! ### Helper lemmas about companion discovery -/

theorem stripLead_eq : ∀ (pre l rest : List Char), stripLead pre l = some rest → l = pre ++ rest := by
  intro pre
  induction pre with
  | nil =>
    intro l rest h
    cases h
    rfl
  | cons p ps ih =>
    intro l rest h
    cases l with
    | nil => cases h
    | cons c cs =>
      by_cases hc : c = p
      · simp only [stripLead, if_pos hc] at h
        rw [hc, List.cons_append]
        exact congrArg (p :: ·) (ih cs rest h)
      · simp [stripLead, hc] at h

theorem mem_dedupStrings : ∀ {l : List String} {p : String}, p ∈ dedupStrings l → p ∈ l := by
  intro l
  induction l with
  | nil => intro p h; cases h
  | cons x xs ih =>
    intro p h
    unfold dedupStrings at h
    by_cases hx : x ∈ xs
    · rw [if_pos hx] at h
      exact List.mem_cons_of_mem x (ih h)
    · rw [if_neg hx] at h
      rcases List.mem_cons.1 h with rfl | h2
      · exact List.mem_cons_self p xs
      · exact List.mem_cons_of_mem x (ih h2)

theorem mem_insertSorted : ∀ {ys : List String} {x p : String},
    p ∈ insertSorted x ys → p = x ∨ p ∈ ys := by
  intro ys
  induction ys with
  | nil =>
    intro x p h
    rcases List.mem_cons.1 h with rfl | h2
    · exact Or.inl rfl
    · cases h2
  | cons y ys ih =>
    intro x p h
    unfold insertSorted at h
    by_cases hlt : charListLt x.data y.data = true
    · rw [if_pos hlt] at h
      rcases List.mem_cons.1 h with rfl | h2
      · exact Or.inl rfl
      · exact Or.inr h2
    · rw [if_neg hlt] at h
      rcases List.mem_cons.1 h with rfl | h2
      · exact Or.inr (List.mem_cons_self p ys)
      · rcases ih h2 with h3 | h3
        · exact Or.inl h3
        · exact Or.inr (List.mem_cons_of_mem y h3)

theorem mem_sortStrings : ∀ {l : List String} {p : String}, p ∈ sortStrings l → p ∈ l := by
  intro l
  induction l with
  | nil => intro p h; cases h
  | cons x xs ih =>
    intro p h
    unfold sortStrings at h
    rcases mem_insertSorted h with rfl | h2
    · exact List.mem_cons_self p xs
    · exact List.mem_cons_of_mem x (ih h2)

theorem globStarMatch_decomp {base p : String} (h : globStarMatch base p = true) :
    ∃ tag : List Char, p.data = base.data ++ '.' :: (tag ++ ['.', 's', 'r', 't']) ∧
      ∀ c ∈ tag, c ≠ '/' := by
  unfold globStarMatch at h
  rcases hs : stripLead (base.data ++ ['.']) p.data with _ | rest
  · simp only [hs] at h
    cases h
  · simp only [hs, Bool.and_eq_true, decide_eq_true_eq, beq_iff_eq, List.all_eq_true] at h
    obtain ⟨⟨hlen, hdrop⟩, hall⟩ := h
    refine ⟨rest.take (rest.length - 4), ?_, ?_⟩
    · calc p.data = (base.data ++ ['.']) ++ rest := stripLead_eq _ _ _ hs
        _ = base.data ++ '.' :: rest := by simp
        _ = base.data ++ '.' :: (rest.take (rest.length - 4) ++ rest.drop (rest.length - 4)) := by
            rw [List.take_append_drop]
        _ = base.data ++ '.' :: (rest.take (rest.length - 4) ++ ['.', 's', 'r', 't']) := by
            rw [hdrop]
    · intro c hc
      simpa using hall c hc

theorem find_matching_glob {assPath p : String} {files : List String}
    (h : p ∈ find_matching_srt_files assPath files) :
    globStarMatch (pyReplace assPath ".danmaku.ass" "") p = true := by
  unfold find_matching_srt_files at h
  exact (List.mem_filter.1 (mem_dedupStrings (mem_sortStrings h))).2

theorem blockToEntry_spec (b : String) :
    blockToEntry b = if specValidBlock b = true then some (specBlockEntry b) else none := by
  rcases hls : splitLines (strip b) with _ | ⟨l0, _ | ⟨l1, _ | ⟨l2, rest⟩⟩⟩
  · simp [blockToEntry, specValidBlock, hls]
  · simp [blockToEntry, specValidBlock, hls]
  · simp [blockToEntry, specValidBlock, hls]
  · rcases ht : timeGroups l1 with _ | ⟨g1, g2⟩
    · simp [blockToEntry, specValidBlock, hls, ht]
    · obtain ⟨⟨v1, e1⟩, ⟨v2, e2⟩⟩ := timeGroups_parse ht
      simp [blockToEntry, specValidBlock, specBlockEntry, hls, ht, e1, e2]

theorem timeGroups_shape {l1 g1 g2 : String} (h : timeGroups l1 = some (g1, g2)) :
    tsShape g1.data = true ∧ tsShape g2.data = true := by
  unfold timeGroups at h
  split at h
  case isTrue hc =>
    injection h with h
    injection h with hg1 hg2
    subst hg1; subst hg2
    exact ⟨hc.1, hc.2.2⟩
  case isFalse => cases h

/-! ### The claims -/

/-- Claim C6: for every companion content, parse returns exactly one entry
per valid block (a block whose stripped form has at least three lines and
whose second line matches the time-range pattern), in file order; blocks
with a malformed or missing time-range line are excluded without an error,
and with no valid block the result is the empty sequence, not an error. -/
theorem c6_parse_filters_valid_blocks (content : String) :
    parse_srt_file content =
      ((splitBlocks (strip content)).filter specValidBlock).map specBlockEntry :=
  filterMap_eq_map_filter blockToEntry specValidBlock specBlockEntry blockToEntry_spec
    (splitBlocks (strip content))

/-- Claim C7 (code bug): the claimed conversions do not hold; the 06.2f
format pads the seconds field of the target notation to a total width of
six characters, so 00:00:07,560 converts to 0:00:007.56 and 00:00:08,300
to 0:00:008.30, not to 0:00:07.56 and 0:00:08.30 as both the claim and the
comment inside parse_srt_time state. -/
theorem c7_seconds_width_format :
    parse_srt_time "00:00:07,560" = some "0:00:007.56" ∧
    parse_srt_time "00:00:08,300" = some "0:00:008.30" ∧
    ("0:00:007.56" : String) ≠ "0:00:07.56" ∧ ("0:00:008.30" : String) ≠ "0:00:08.30" := by
  refine ⟨by decide, by decide, by decide, by decide⟩

/-- Claim C9: a primary document whose dialogue-section header line strips
to the events header without being exactly equal to it is recognised by the
scan, yet the end-of-file fallback looks the header up by exact equality
and raises an uncaught ValueError: merge neither returns a document nor
reports a failure. -/
theorem c9_strip_exact_mismatch_raises :
    mergeCore ["[Events] ", "Dialogue: old"] [demoSub] = .valueError ∧
    strip "[Events] " = "[Events]" ∧ ("[Events] " : String) ≠ "[Events]" := by
  refine ⟨by decide, by decide, by decide⟩

/-- Claim C3 (code bug): the batch is not isolated against every failure.
A pairing whose primary header line carries trailing whitespace makes
merge_ass_srt raise an uncaught ValueError, which aborts the whole run
(none), even though the remaining pairing would merge successfully on its
own (some (1, 0)). -/
theorem c3_uncaught_error_aborts_batch :
    processPairings [⟨"[Events] \nDialogue: old", demoSrt, true⟩,
      ⟨"[Script Info]\n[Events]\nDialogue: x", demoSrt, true⟩] = none ∧
    processPairings [⟨"[Script Info]\n[Events]\nDialogue: x", demoSrt, true⟩] = some (1, 0) := by
  refine ⟨by decide, by decide⟩

/-- Claim C5, counterexample: pairing show.danmaku.ass with show.srt does
not produce the fallback name show.merged.ass; the base show is contained
in the companion base, so the tagged format fires with an empty tag and
yields show..merged.ass with a double dot. -/
theorem c5_counterexample :
    generate_output_filename "show.srt" "show.danmaku.ass" = "show..merged.ass" ∧
    ("show..merged.ass" : String) ≠ "show.merged.ass" := by
  refine ⟨by decide, by decide⟩

/-- Claim C5, amended: companion show.ai-zh.srt yields show.ai-zh.merged.ass;
companion show.srt yields show..merged.ass (tagged format, empty tag); the
fallback name show.merged.ass arises only when the base identifier does not
occur inside the companion base, as for companion other.srt. -/
theorem c5_output_names :
    generate_output_filename "show.ai-zh.srt" "show.danmaku.ass" = "show.ai-zh.merged.ass" ∧
    generate_output_filename "show.srt" "show.danmaku.ass" = "show..merged.ass" ∧
    generate_output_filename "other.srt" "show.danmaku.ass" = "show.merged.ass" := by
  refine ⟨by decide, by decide, by decide⟩

/-- Claim C1, counterexample: with two section headers after the events
header the synthesized dialogue block is inserted before each of them, so
it appears twice in the output rather than exactly once. -/
theorem c1_counterexample :
    mergeCore ["[Events]", "[Fonts]", "[Graphics]"] [demoSub] =
      .ok ["[Events]", dialogue_line demoSub, "[Fonts]", dialogue_line demoSub, "[Graphics]"] ∧
    (["[Events]", dialogue_line demoSub, "[Fonts]", dialogue_line demoSub,
      "[Graphics]"].count (dialogue_line demoSub) = 2) ∧
    (["[Events]", "[Fonts]", "[Graphics]"].count (dialogue_line demoSub) = 0) := by
  refine ⟨by decide, by decide, by decide⟩

/-- Claim C2, counterexample: on a primary document with no recognised
events header and a companion with entries, merge does not fail with a
NoEventsSection error; it returns success and produces an output document
equal to the unchanged input. -/
theorem c2_counterexample :
    merge_ass_srt "[Script Info]\nTitle: x" demoSrt true =
      .success ["[Script Info]", "Title: x"] ∧
    parse_srt_file demoSrt ≠ [] := by
  refine ⟨by decide, by decide⟩

/-- Claim C8, counterexample: parse_srt_time performs no validation of its
own; on the input 1:2:3,4, which does not match the two-digit pattern
HH:MM:SS,mmm, it returns a converted value instead of failing. -/
theorem c8_counterexample :
    tsShape ("1:2:3,4" : String).data = false ∧
    parse_srt_time "1:2:3,4" = some "1:02:003.40" := by
  refine ⟨by decide, by decide⟩

/-- Claim C2, amended: merge on a primary document with no line stripping
to the events header does not fail and does not withhold output; it
succeeds and the output document is the unchanged input, with no
synthesized content inserted, and the pairing is counted as merged. -/
theorem c2_no_events_copies_input (assContent srtContent : String)
    (h1 : ∀ l ∈ splitLines assContent, strip l ≠ "[Events]")
    (h2 : assContent ≠ "")
    (h3 : parse_srt_file srtContent ≠ []) :
    merge_ass_srt assContent srtContent true = .success (splitLines assContent) := by
  unfold merge_ass_srt
  rw [if_neg h2, if_neg h3]
  simp only [mergeCore_no_events h1]
  simp

/-- Witness for c2_no_events_copies_input at a concrete primary. -/
theorem c2_witness :
    ((∀ l ∈ splitLines "[Script Info]\nTitle: x", strip l ≠ "[Events]") ∧
      ("[Script Info]\nTitle: x" : String) ≠ "" ∧ parse_srt_file demoSrt ≠ []) ∧
    merge_ass_srt "[Script Info]\nTitle: x" demoSrt true =
      .success (splitLines "[Script Info]\nTitle: x") :=
  ⟨⟨by decide, by decide, by decide⟩,
    c2_no_events_copies_input "[Script Info]\nTitle: x" demoSrt (by decide) (by decide) (by decide)⟩

/-- Claim C1, amended: every line of the input document appears unchanged
and in order in the output of every successful merge; and when at most one
section header follows the events header (here: none), the synthesized
dialogue block is inserted exactly once, at the end. In general the scan
inserts the block once before every later section header, so with two or
more later headers it is inserted once per header, not once per call. -/
theorem c1_pass_through_and_insert_once :
    (∀ (lines : List String) (subs : List SrtSub) (out : List String),
        mergeCore lines subs = .ok out → lines.Sublist out) ∧
    (∀ (subs : List SrtSub) (pre tail : List String),
        (∀ l ∈ pre, strip l ≠ "[V4+ Styles]" ∧ strip l ≠ "[Events]") →
        (∀ l ∈ tail, pyStartsWith (strip l) "[" = false) →
        mergeCore (pre ++ ["[Events]"] ++ tail) subs =
          .ok (pre ++ ["[Events]"] ++ tail ++ subs.map dialogue_line)) := by
  constructor
  · intro lines subs out h
    exact mergeCore_ok_sublist h
  · intro subs pre tail hpre htail
    have e1 : strip "[Events]" = "[Events]" := by decide
    have e2 : ¬ strip "[Events]" = "[V4+ Styles]" := by decide
    simp only [List.append_assoc, List.singleton_append]
    have hstep : mergeScan subs false false ("[Events]" :: tail) =
        "[Events]" :: mergeScan subs false true tail := by
      simp [mergeScan, e1, e2]
    have hscan : mergeScan subs false false (pre ++ "[Events]" :: tail) =
        pre ++ "[Events]" :: tail := by
      rw [mergeScan_pass_no_sections subs false pre _ hpre, hstep,
        mergeScan_stop_no_bracket subs false true tail htail]
    have hev : events_section_found (pre ++ "[Events]" :: tail) = true :=
      events_found_of_mem (by simp) e1
    have hne : ∀ x ∈ pre, x ≠ "[Events]" := fun x hx => ne_events_of_strip_ne (hpre x hx).2
    have hidx : pyIndexOf "[Events]" (pre ++ "[Events]" :: tail) = some pre.length :=
      pyIndexOf_append "[Events]" pre tail hne
    have hdrop : (pre ++ "[Events]" :: tail).drop (pre.length + 1) = tail :=
      drop_past_marker "[Events]" pre tail
    have hany : (tail.any (fun l => pyStartsWith (strip l) "[" && (strip l != "[Events]"))) = false := by
      rw [List.any_eq_false]
      intro l hl
      simp [htail l hl]
    unfold mergeCore
    rw [if_pos hev]
    simp only [hidx]
    rw [hdrop]
    have hcond : ¬ ((tail.any (fun l => pyStartsWith (strip l) "[" && (strip l != "[Events]"))) = true) := by
      rw [hany]
      simp
    rw [if_neg hcond, hscan]
    simp [List.append_assoc]

/-- Witness for c1_pass_through_and_insert_once at a concrete document. -/
theorem c1_witness :
    ((∀ l ∈ ["Comment: a"], strip l ≠ "[V4+ Styles]" ∧ strip l ≠ "[Events]") ∧
      (∀ l ∈ ["Dialogue: orig"], pyStartsWith (strip l) "[" = false)) ∧
    mergeCore (["Comment: a"] ++ ["[Events]"] ++ ["Dialogue: orig"]) [demoSub] =
      .ok (["Comment: a"] ++ ["[Events]"] ++ ["Dialogue: orig"] ++ [demoSub].map dialogue_line) :=
  ⟨⟨by decide, by decide⟩,
    c1_pass_through_and_insert_once.2 [demoSub] ["Comment: a"] ["Dialogue: orig"]
      (by decide) (by decide)⟩

/-- Claim C4: merge places synthesized content at the end of the dialogue
section. First part: on a primary containing a styles header, then the
events header, then no further section header, the synthesized style line
is placed immediately before the events header and all synthesized dialogue
lines are appended at the very end, after all original dialogue lines.
Second part: when the events header is followed later by another section
header, the dialogue lines are placed immediately before that later header
and not at the end of the file. -/
theorem c4_insertion_points :
    (∀ (subs : List SrtSub) (pre mid tail : List String) (sL : String),
        strip sL = "[V4+ Styles]" →
        (∀ l ∈ pre, strip l ≠ "[V4+ Styles]" ∧ strip l ≠ "[Events]") →
        (∀ l ∈ mid, strip l ≠ "[Events]") →
        (∀ l ∈ tail, pyStartsWith (strip l) "[" = false) →
        mergeCore (pre ++ [sL] ++ mid ++ ["[Events]"] ++ tail) subs =
          .ok (pre ++ [sL] ++ mid ++ [subtitle_style, "[Events]"] ++ tail ++
            subs.map dialogue_line)) ∧
    (∀ (subs : List SrtSub) (pre mid tail : List String) (hL : String),
        (∀ l ∈ pre, strip l ≠ "[V4+ Styles]" ∧ strip l ≠ "[Events]") →
        (∀ l ∈ mid, pyStartsWith (strip l) "[" = false) →
        pyStartsWith (strip hL) "[" = true →
        strip hL ≠ "[Events]" →
        strip hL ≠ "[V4+ Styles]" →
        (∀ l ∈ tail, pyStartsWith (strip l) "[" = false) →
        mergeCore (pre ++ ["[Events]"] ++ mid ++ [hL] ++ tail) subs =
          .ok (pre ++ ["[Events]"] ++ mid ++ subs.map dialogue_line ++ [hL] ++ tail)) := by
  constructor
  · intro subs pre mid tail sL hsL hpre hmid htail
    have e1 : strip "[Events]" = "[Events]" := by decide
    have e2 : ¬ strip "[Events]" = "[V4+ Styles]" := by decide
    rw [show pre ++ [sL] ++ mid ++ ["[Events]"] ++ tail =
      pre ++ sL :: (mid ++ "[Events]" :: tail) from by simp]
    have hstep1 : mergeScan subs false false (sL :: (mid ++ "[Events]" :: tail)) =
        sL :: mergeScan subs true false (mid ++ "[Events]" :: tail) := by
      simp [mergeScan, hsL]
    have hstep2 : mergeScan subs true false ("[Events]" :: tail) =
        subtitle_style :: "[Events]" :: mergeScan subs true true tail := by
      simp [mergeScan, e1, e2]
    have hscan : mergeScan subs false false (pre ++ sL :: (mid ++ "[Events]" :: tail)) =
        pre ++ sL :: (mid ++ subtitle_style :: "[Events]" :: tail) := by
      rw [mergeScan_pass_no_sections subs false pre _ hpre, hstep1,
        mergeScan_pass_style_seen subs mid _ hmid, hstep2,
        mergeScan_stop_no_bracket subs true true tail htail]
    have hsLne : sL ≠ "[Events]" := by
      intro e
      rw [strip_of_eq_events e] at hsL
      exact absurd hsL (by decide)
    have hne : ∀ x ∈ pre ++ sL :: mid, x ≠ "[Events]" := by
      intro x hx
      rcases List.mem_append.1 hx with h | h
      · exact ne_events_of_strip_ne (hpre x h).2
      · rcases List.mem_cons.1 h with rfl | h
        · exact hsLne
        · exact ne_events_of_strip_ne (hmid x h)
    have hform : pre ++ sL :: (mid ++ "[Events]" :: tail) =
        (pre ++ sL :: mid) ++ "[Events]" :: tail := by
      simp
    have hev : events_section_found (pre ++ sL :: (mid ++ "[Events]" :: tail)) = true :=
      events_found_of_mem (by simp) e1
    have hidx : pyIndexOf "[Events]" (pre ++ sL :: (mid ++ "[Events]" :: tail)) =
        some (pre ++ sL :: mid).length := by
      rw [hform]
      exact pyIndexOf_append "[Events]" (pre ++ sL :: mid) tail hne
    have hdrop : (pre ++ sL :: (mid ++ "[Events]" :: tail)).drop ((pre ++ sL :: mid).length + 1) =
        tail := by
      rw [hform]
      exact drop_past_marker "[Events]" (pre ++ sL :: mid) tail
    have hany : (tail.any (fun l => pyStartsWith (strip l) "[" && (strip l != "[Events]"))) = false := by
      rw [List.any_eq_false]
      intro l hl
      simp [htail l hl]
    unfold mergeCore
    rw [if_pos hev]
    simp only [hidx]
    rw [hdrop]
    have hcond : ¬ ((tail.any (fun l => pyStartsWith (strip l) "[" && (strip l != "[Events]"))) = true) := by
      rw [hany]
      simp
    rw [if_neg hcond, hscan]
    simp [List.append_assoc]
  · intro subs pre mid tail hL hpre hmid hhb hhe hhs htail
    have e1 : strip "[Events]" = "[Events]" := by decide
    have e2 : ¬ strip "[Events]" = "[V4+ Styles]" := by decide
    rw [show pre ++ ["[Events]"] ++ mid ++ [hL] ++ tail =
      pre ++ "[Events]" :: (mid ++ hL :: tail) from by simp]
    have hstep1 : mergeScan subs false false ("[Events]" :: (mid ++ hL :: tail)) =
        "[Events]" :: mergeScan subs false true (mid ++ hL :: tail) := by
      simp [mergeScan, e1, e2]
    have hstep2 : mergeScan subs false true (hL :: tail) =
        subs.map dialogue_line ++ hL :: mergeScan subs false true tail := by
      simp [mergeScan, hhs, hhe, hhb]
    have hscan : mergeScan subs false false (pre ++ "[Events]" :: (mid ++ hL :: tail)) =
        pre ++ "[Events]" :: (mid ++ (subs.map dialogue_line ++ hL :: tail)) := by
      rw [mergeScan_pass_no_sections subs false pre _ hpre, hstep1,
        mergeScan_pass_no_bracket subs false true mid _ hmid, hstep2,
        mergeScan_stop_no_bracket subs false true tail htail]
    have hne : ∀ x ∈ pre, x ≠ "[Events]" := fun x hx => ne_events_of_strip_ne (hpre x hx).2
    have hev : events_section_found (pre ++ "[Events]" :: (mid ++ hL :: tail)) = true :=
      events_found_of_mem (by simp) e1
    have hidx : pyIndexOf "[Events]" (pre ++ "[Events]" :: (mid ++ hL :: tail)) =
        some pre.length :=
      pyIndexOf_append "[Events]" pre (mid ++ hL :: tail) hne
    have hdrop : (pre ++ "[Events]" :: (mid ++ hL :: tail)).drop (pre.length + 1) =
        mid ++ hL :: tail :=
      drop_past_marker "[Events]" pre (mid ++ hL :: tail)
    have hany : ((mid ++ hL :: tail).any
        (fun l => pyStartsWith (strip l) "[" && (strip l != "[Events]"))) = true := by
      rw [List.any_eq_true]
      refine ⟨hL, by simp, ?_⟩
      rw [hhb]
      simpa [bne_iff_ne] using hhe
    unfold mergeCore
    rw [if_pos hev]
    simp only [hidx]
    rw [hdrop, if_pos hany, hscan]
    simp [List.append_assoc]

/-- Witness for c4_insertion_points at a concrete document with a styles
section, an events section and no later header. -/
theorem c4_witness :
    (strip "[V4+ Styles]" = "[V4+ Styles]" ∧
      (∀ l ∈ ["[Script Info]"], strip l ≠ "[V4+ Styles]" ∧ strip l ≠ "[Events]") ∧
      (∀ l ∈ ["Format: f"], strip l ≠ "[Events]") ∧
      (∀ l ∈ ["Dialogue: orig"], pyStartsWith (strip l) "[" = false)) ∧
    mergeCore (["[Script Info]"] ++ ["[V4+ Styles]"] ++ ["Format: f"] ++ ["[Events]"] ++
        ["Dialogue: orig"]) [demoSub] =
      .ok (["[Script Info]"] ++ ["[V4+ Styles]"] ++ ["Format: f"] ++
        [subtitle_style, "[Events]"] ++ ["Dialogue: orig"] ++ [demoSub].map dialogue_line) :=
  ⟨⟨by decide, by decide, by decide, by decide⟩,
    c4_insertion_points.1 [demoSub] ["[Script Info]"] ["Format: f"] ["Dialogue: orig"]
      "[V4+ Styles]" (by decide) (by decide) (by decide) (by decide)⟩

/-- Claim C8, amended: parse_srt_time itself performs no validation and can
return a converted value for a non-matching input; the pattern guarantee is
enforced by the regular-expression guard in parse_srt_file instead; every
entry the parser produces has its start and end timestamps converted from
captured groups that match the timestamp pattern, and a block whose time
line lacks the pattern is dropped before any conversion happens. -/
theorem c8_conversion_guarded (content : String) (e : SrtSub)
    (h : e ∈ parse_srt_file content) :
    ∃ g1 g2 : String, tsShape g1.data = true ∧ tsShape g2.data = true ∧
      parse_srt_time g1 = some e.start ∧ parse_srt_time g2 = some e.stop := by
  unfold parse_srt_file at h
  obtain ⟨b, _, hbe⟩ := List.mem_filterMap.1 h
  unfold blockToEntry at hbe
  rcases hls : splitLines (strip b) with _ | ⟨l0, _ | ⟨l1, _ | ⟨l2, rest⟩⟩⟩
  · simp only [hls] at hbe
    exact Option.noConfusion hbe
  · simp only [hls] at hbe
    exact Option.noConfusion hbe
  · simp only [hls] at hbe
    exact Option.noConfusion hbe
  · simp only [hls] at hbe
    rcases ht : timeGroups l1 with _ | ⟨g1, g2⟩
    · simp only [ht] at hbe
      exact Option.noConfusion hbe
    · obtain ⟨hs1, hs2⟩ := timeGroups_shape ht
      obtain ⟨⟨v1, e1⟩, ⟨v2, e2⟩⟩ := timeGroups_parse ht
      simp only [ht, e1, e2] at hbe
      cases hbe
      exact ⟨g1, g2, hs1, hs2, e1, e2⟩

/-- Witness for c8_conversion_guarded at a concrete companion content. -/
theorem c8_witness :
    (demoSub ∈ parse_srt_file demoSrt) ∧
    (∃ g1 g2 : String, tsShape g1.data = true ∧ tsShape g2.data = true ∧
      parse_srt_time g1 = some demoSub.start ∧ parse_srt_time g2 = some demoSub.stop) :=
  ⟨by decide, c8_conversion_guarded demoSrt demoSub (by decide)⟩

/-- Claim C10: every companion path returned by find_matching_srt_files has
the shape base identifier, dot, a possibly empty separator-free tag, then
the companion suffix; in particular the untagged name consisting of the
base followed directly by the companion suffix is never returned, so the
no-extra-tag pairing cannot arise through companion discovery. -/
theorem c10_companions_carry_tag (assPath : String) (files : List String) (p : String)
    (h : p ∈ find_matching_srt_files assPath files) :
    (∃ tag : List Char,
        p.data = (pyReplace assPath ".danmaku.ass" "").data ++ '.' :: (tag ++ ['.', 's', 'r', 't']) ∧
        ∀ c ∈ tag, c ≠ '/') ∧
    p ≠ pyReplace assPath ".danmaku.ass" "" ++ ".srt" := by
  obtain ⟨tag, hdec, htag⟩ := globStarMatch_decomp (find_matching_glob h)
  refine ⟨⟨tag, hdec, htag⟩, ?_⟩
  intro he
  have hd : p.data = (pyReplace assPath ".danmaku.ass" "").data ++ ['.', 's', 'r', 't'] := by
    rw [he, String.data_append]
  rw [hd] at hdec
  have h3 := List.append_cancel_left hdec
  injection h3 with _ h4
  have h5 := congrArg List.length h4
  simp at h5

/-- Witness for c10_companions_carry_tag at a concrete listing. -/
theorem c10_witness :
    ("show.ai-zh.srt" ∈ find_matching_srt_files "show.danmaku.ass" ["show.ai-zh.srt", "show.srt"]) ∧
    ((∃ tag : List Char,
        ("show.ai-zh.srt" : String).data =
          (pyReplace "show.danmaku.ass" ".danmaku.ass" "").data ++ '.' :: (tag ++ ['.', 's', 'r', 't']) ∧
        ∀ c ∈ tag, c ≠ '/') ∧
      ("show.ai-zh.srt" : String) ≠ pyReplace "show.danmaku.ass" ".danmaku.ass" "" ++ ".srt") :=
  ⟨by decide,
    c10_companions_carry_tag "show.danmaku.ass" ["show.ai-zh.srt", "show.srt"] "show.ai-zh.srt"
      (by decide)⟩
